import Mathlib

/-!
Verification of the expense-extraction pipeline of a WhatsApp expense-logging
bot.  The JavaScript sources modelled here are `src/services/gemini.js`,
`src/services/expenseParser.js`, `src/services/sheets.js` and `src/index.js`.

Embedding conventions:
* JavaScript strings are `String`; `null`/`undefined` are `Option.none`
  wherever the program never distinguishes the two.
* Finite IEEE doubles are embedded as exact rationals (`ℚ`).  Every finite
  double is a dyadic rational, and every numeral appearing in the claims
  (12.5, 3.5, 350, 0, -5) is exactly representable, so no rounding is lost.
  `String(n)`/`parseFloat` round-trip facts are noted at their use site.
* Thrown exceptions are `Except.error` with the thrown message.
* The two opaque Gemini network calls are oracle parameters of type
  `Except String ExpenseRecord`; the `Intl.DateTimeFormat` calendar engine is
  an oracle parameter mapping a timezone specifier to an optional formatter.
* Character classes are modelled over the ASCII range the claims exercise
  (the regexes in the source use `\d`, `[0-9]`, `[A-Za-z]`, `[a-z0-9 _-]`,
  which are ASCII anyway; `\p{L}` and `\s` are restricted to ASCII).
-/

namespace MpExpense

/-- ASCII digit test, as the regex classes `\d` and `[0-9]` match them. -/
def isDig (c : Char) : Bool := 48 ≤ c.toNat && c.toNat ≤ 57

/-- JavaScript whitespace (`\s`, and the set removed by `String.prototype.trim`),
restricted to ASCII; no claim involves a Unicode space. -/
def isJsWs (c : Char) : Bool :=
  c = ' ' || c = '\t' || c = '\n' || c = '\r' || c = '\x0b' || c = '\x0c'

/-- List-level model of `String.prototype.trim`. -/
def jsTrimL (cs : List Char) : List Char :=
  ((cs.dropWhile isJsWs).reverse.dropWhile isJsWs).reverse

/-- JavaScript `value.trim()`. -/
def jsTrim (s : String) : String := String.mk (jsTrimL s.toList)

/-- JavaScript `toUpperCase`; ASCII range (identity beyond it, which agrees
with JavaScript on every character these sources can feed it). -/
def upperStr (s : String) : String := String.mk (s.toList.map Char.toUpper)

/-- JavaScript `toLowerCase`; ASCII range, as `upperStr`. -/
def lowerStr (s : String) : String := String.mk (s.toList.map Char.toLower)

/-- Split a character list at every separator, keeping empty pieces — the
behaviour of JavaScript `String.prototype.split` with a single-character
regex class. -/
def splitOnL (p : Char → Bool) : List Char → List (List Char)
  | [] => [[]]
  | c :: cs =>
    if p c then [] :: splitOnL p cs
    else
      match splitOnL p cs with
      | [] => [[c]]
      | g :: gs => (c :: g) :: gs

/-- Accumulate a run of leading ASCII digits; returns the accumulated value,
the number of digits consumed, and the rest of the input. -/
def grabDigits : List Char → Nat → Nat → Nat × Nat × List Char
  | [], acc, n => (acc, n, [])
  | c :: cs, acc, n =>
    if isDig c then grabDigits cs (10 * acc + (c.toNat - 48)) (n + 1)
    else (acc, n, c :: cs)

/-- Model of `Number.parseFloat` on the character alphabet reachable at its
call sites in this program (ASCII digits, `.`, `,`, `-`): the longest valid
decimal prefix is parsed, `none` models a `NaN` result.  (`parseFloat` also
accepts leading whitespace, `+`, exponents and `Infinity`, but those
characters are filtered out before every call modelled here.) -/
def jsParseFloat (s : String) : Option ℚ :=
  let p :=
    match s.toList with
    | '-' :: rest => (true, rest)
    | cs => (false, cs)
  let ipart := grabDigits p.2 0 0
  let fpart :=
    match ipart.2.2 with
    | '.' :: r => grabDigits r 0 0
    | _ => (0, 0, [])
  if ipart.2.1 + fpart.2.1 = 0 then none
  else
    let mag : ℚ := mkRat (Int.ofNat (ipart.1 * 10 ^ fpart.2.1 + fpart.1)) (10 ^ fpart.2.1)
    some (if p.1 then -mag else mag)

/-- The sanitizing step of `coerceNumber` (gemini.js line 23):
`String(value).replace(/[^\d.,-]/g, '')`. -/
def sanitizeAmount (s : String) : String :=
  String.mk (s.toList.filter (fun c => isDig c || c = '.' || c = ',' || c = '-'))

/-- `replace(',', '.')` from `coerceNumber`: only the first comma is replaced. -/
def replaceFirstComma : List Char → List Char
  | [] => []
  | ',' :: cs => '.' :: cs
  | c :: cs => c :: replaceFirstComma cs

/-! ## Data model -/

/-- A JSON value found in the `amount` position of the model's reply.
`nil` stands for an absent field, JSON `null`, or `undefined` — `coerceNumber`
(gemini.js lines 19-26) returns `null` for all of them.  JSON numbers are
finite doubles, embedded as exact rationals. -/
inductive AmountField where
  | nil : AmountField
  | num : ℚ → AmountField
  | str : String → AmountField
deriving DecidableEq

/-- The normalized expense record produced by every extraction path.
The regex-fallback record literal (expenseParser.js lines 180-187) has no
`account` key at all (the field is `undefined`); no consumer of a record ever
distinguishes `undefined` from `null`, so both are embedded as `none`. -/
structure ExpenseRecord where
  date : String
  description : String
  category : String
  amount : ℚ
  currency : String
  merchant : Option String
  account : Option String
deriving DecidableEq

/-- The JSON object handed to `GeminiService.normalizeResponse` after
`cleanJsonResponse`.  For each string-valued field `none` stands for an absent
field or a JSON `null`: the spread-merge onto the default record (gemini.js
lines 65-74) leaves the default in place for an absent field, and each
subsequent falsiness guard replaces a merged `null` with that same default, so
the two are indistinguishable in the result. -/
structure RawResponse where
  date : Option String
  description : Option String
  category : Option String
  amount : AmountField
  currency : Option String
  merchant : Option String
  account : Option String
deriving DecidableEq

/-! ## GeminiService (gemini.js) -/

/-- `coerceNumber` (gemini.js lines 19-26): `null`/`undefined`/`''` give
`null`; otherwise the stringified value is sanitized to `[\d.,-]`, its first
comma becomes a dot, and the result is parsed with `parseFloat`; a non-finite
result gives `null`.  For a number input, `String(n)` renders a finite double
as a plain decimal numeral over `[0-9.-]` which the sanitizer leaves unchanged
and which `parseFloat` maps back to exactly `n` (doubles round-trip through
their decimal rendering), so that case is the identity; renderings in exponent
notation (`|n| ≥ 1e21` or `0 < |n| < 1e-6`) are outside this model, as is the
overflow of a several-hundred-digit literal to `Infinity`. -/
def coerceNumber : AmountField → Option ℚ
  | .nil => none
  | .num q => some q
  | .str s =>
    if s = "" then none
    else jsParseFloat (String.mk (replaceFirstComma (sanitizeAmount s).toList))

/-- JavaScript `String.prototype.padStart(n, fill)`: pad on the left with
copies of `fill`, truncated to the needed length. -/
def padStartJs (s : String) (n : Nat) (fill : String) : String :=
  if n ≤ s.length then s
  else String.mk (((List.replicate (n - s.length) fill.toList).flatten).take (n - s.length)) ++ s

/-- The `MM/DD/YYYY → YYYY-MM-DD` rewrite of `normalizeResponse` (gemini.js
lines 80-85): applied only when the date contains a `/`; the date is split on
`/` and `-`, and if three non-empty parts exist they are reassembled as
`year.padStart(4,'20')-month.padStart(2,'0')-day.padStart(2,'0')`. -/
def rewriteSlashDate (s : String) : String :=
  if s.toList.contains '/' then
    match splitOnL (fun c => c = '/' || c = '-') s.toList with
    | m :: d :: y :: _ =>
      if m ≠ [] && d ≠ [] && y ≠ [] then
        padStartJs (String.mk y) 4 "20" ++ "-" ++ padStartJs (String.mk m) 2 "0" ++ "-" ++
          padStartJs (String.mk d) 2 "0"
      else s
    | _ => s
  else s

/-- `GeminiService.normalizeResponse` (gemini.js lines 64-119): spread-merge
onto the default record, date fallback and slash-date rewrite, amount coercion
guarded by `if (!parsed.amount) throw` (the thrown
`Error('Gemini could not determine an amount')` is the spec's
`AmountUnresolvedError`; the falsiness test rejects `null` and `0`),
currency defaulting then trim/upper-case, account trim-or-null, and
description/category defaulting. -/
def normalizeResponse (raw : RawResponse) (fallbackDate defaultCurrency : String) :
    Except String ExpenseRecord :=
  let date0 := match raw.date with
    | some s => if s = "" then fallbackDate else s
    | none => fallbackDate
  let date1 := rewriteSlashDate date0
  match coerceNumber raw.amount with
  | none => .error "Gemini could not determine an amount"
  | some q =>
    if q = 0 then .error "Gemini could not determine an amount"
    else
      let cur0 := match raw.currency with
        | some s => if s = "" then defaultCurrency else s
        | none => defaultCurrency
      let account := match raw.account with
        | some s => if jsTrim s = "" then none else some (jsTrim s)
        | none => none
      let desc := match raw.description with
        | some s => if s = "" then "Expense" else s
        | none => "Expense"
      let cat := match raw.category with
        | some s => if s = "" then "General" else s
        | none => "General"
      .ok ⟨date1, desc, cat, q, upperStr (jsTrim cur0), raw.merchant, account⟩

deriving instance DecidableEq for Except

/-! ## Regex fallback extractor (expenseParser.js lines 161-201) -/

/-- `normalizeCurrency` (expenseParser.js lines 190-201). -/
def normalizeCurrency (currency : Option String) (defaultCurrency : String) : String :=
  match currency with
  | none => defaultCurrency
  | some s =>
    if s = "" then defaultCurrency
    else
      let t := upperStr (jsTrim s)
      if t = "$" then "USD"
      else if t = "€" then "EUR"
      else if t = "£" then "GBP"
      else if t.length = 3 then t
      else defaultCurrency

/-- A character the description group `[\p{L}\s]` can match; `\p{L}` is
restricted to ASCII letters (every claim input is ASCII). -/
def isDescChar (c : Char) : Bool := c.isAlpha || isJsWs c

/-- A character the amount tail `[\d.,]` can match. -/
def isAmtChar (c : Char) : Bool := isDig c || c = '.' || c = ','

/-- The single-symbol currency alternative `[$€£]`. -/
def currSym : List Char → Option String
  | c :: _ => if c = '$' || c = '€' || c = '£' then some (String.mk [c]) else none
  | [] => none

/-- The tail of the fallback regex after a candidate description prefix:
`\s*(?<amount>[0-9]+[\d.,]*)\s*(?<currency>[A-Za-z]{3}|[$€£])?`.  Whitespace
is consumed greedily, the amount must start with a digit and extends greedily
over `[\d.,]`, and the optional currency group first tries three consecutive
ASCII letters and then a single symbol (nothing after the amount is required,
so no backtracking into the amount can occur). -/
def fbTail (cs : List Char) : Option (List Char × Option String) :=
  let afterWs := cs.dropWhile isJsWs
  match afterWs with
  | c :: _ =>
    if isDig c then
      let amt := afterWs.takeWhile isAmtChar
      let rest := (afterWs.dropWhile isAmtChar).dropWhile isJsWs
      let cur : Option String :=
        match rest with
        | a :: b :: c3 :: _ =>
          if a.isAlpha && b.isAlpha && c3.isAlpha then some (String.mk [a, b, c3])
          else currSym rest
        | _ => currSym rest
      some (amt, cur)
    else none
  | [] => none

/-- The lazy description group `(?<description>[\p{L}\s]+?)` of the fallback
regex: grow the description one character at a time (each must be in the
class) and try the rest of the pattern after every extension — the standard
semantics of a lazy quantifier anchored at the start. -/
def fbLoop (acc : List Char) : List Char → Option (List Char × List Char × Option String)
  | [] => none
  | c :: cs =>
    if isDescChar c then
      match fbTail cs with
      | some (amt, cur) => some (acc ++ [c], amt, cur)
      | none => fbLoop (acc ++ [c]) cs
    else none

/-- `fallbackParseText` (expenseParser.js lines 161-188).  `text && ...` makes
an empty text fail; the amount group is comma-stripped (`replace(/,/g, '')` —
all commas removed) and parsed with `parseFloat`; the parse cannot yield `NaN`
because the group starts with a digit, so the `getD 0` default is unreachable.
The returned object literal carries no `account` key; see `ExpenseRecord`. -/
def fallbackParseText (text fallbackDate defaultCurrency : String) :
    Except String ExpenseRecord :=
  if text = "" then .error "Fallback parser could not understand the message"
  else
    match fbLoop [] text.toList with
    | none => .error "Fallback parser could not understand the message"
    | some (desc, amt, cur) =>
      .ok ⟨fallbackDate, String.mk (jsTrimL desc), "General",
           (jsParseFloat (String.mk (amt.filter (fun c => !(c = ','))))).getD 0,
           normalizeCurrency cur defaultCurrency, none, none⟩

/-! ## Persistence row (sheets.js) -/

/-- A cell of the appended row: the Google Sheets `values` array holds the
amount as a number and everything else as strings (`appendToCsv` stringifies
the same list afterwards). -/
inductive Cell where
  | str : String → Cell
  | num : ℚ → Cell
deriving DecidableEq

/-- The description column: `metadata?.note ? metadata.note.trim() : ''` and
`note ? description - note : description` (sheets.js lines 66-67 and
111-112); `noteIn = ""` models an absent or empty note. -/
def noteDescription (e : ExpenseRecord) (noteIn : String) : String :=
  let note := if noteIn = "" then "" else jsTrim noteIn
  if note = "" then e.description else e.description ++ " - " ++ note

/-- The row literal built — identically — by `appendToGoogleSheet`
(sheets.js lines 68-81) and `appendToCsv` (lines 113-124): timestamp, date,
category, description, amount, `''`, merchant-or-`''`, then three `''`
columns; `nowIso` stands for `new Date().toISOString()`. -/
def expenseRow (e : ExpenseRecord) (noteIn : String) (nowIso : String) : List Cell :=
  [.str nowIso, .str e.date, .str e.category, .str (noteDescription e noteIn),
   .num e.amount, .str "", .str (e.merchant.getD ""), .str "", .str "", .str ""]

/-! ## Extraction orchestrator: the fallback chain (expenseParser.js 214-246) -/

/-- An error escaping `ExpenseParser.parse`: either a Gemini-stage error
rethrown as-is (`throw error` on line 234 or an uncaught text-path error), or
the `Error` thrown by the regex fallback. -/
inductive ParseError where
  | model : String → ParseError
  | fallback : String → ParseError
deriving DecidableEq

/-- `ExpenseParser.parse` (expenseParser.js lines 214-246).  The two Gemini
calls are oracle parameters carrying their outcome (`.error` models a thrown
exception of any kind — network failure, `cleanJsonResponse` failure, or the
amount guard).  `hasMedia` is the truthiness of `media`; `text` is the
caller's message text, with `""` for an absent/empty one (`if (text)`).
The caller computes `fallbackDate` with `formatDateFromTimestamp` on its first
line; it is passed here already computed so that the date machinery, modelled
separately below, stays independent of the fallback-chain control flow. -/
def ExpenseParser.parse (imageOutcome textOutcome : Except String ExpenseRecord)
    (hasMedia : Bool) (text fallbackDate defaultCurrency : String) :
    Except ParseError ExpenseRecord :=
  if hasMedia then
    match imageOutcome with
    | .ok r => .ok r
    | .error e =>
      if text = "" then .error (.model e)
      else
        match fallbackParseText text fallbackDate defaultCurrency with
        | .ok r => .ok r
        | .error fe => .error (.fallback fe)
  else
    match textOutcome with
    | .ok r => .ok r
    | .error _ =>
      match fallbackParseText text fallbackDate defaultCurrency with
      | .ok r => .ok r
      | .error fe => .error (.fallback fe)

/-! ## Date resolver (expenseParser.js lines 109-159) -/

/-- The sign character of `OFFSET_TIMEZONE_REGEX`. -/
def parseSign : Char → Option Int
  | '+' => some 1
  | '-' => some (-1)
  | _ => none

/-- The digit value of an ASCII digit character. -/
def digitVal (c : Char) : Nat := c.toNat - 48

/-- The `(\d{1,2})(?::(\d{2}))?$` tail of `OFFSET_TIMEZONE_REGEX`: one of the
four shapes `D`, `DD`, `D:MM`, `DD:MM`, anchored at the end; yields the total
offset in minutes (`hours * 60 + minutes`, as computed on line 129). -/
def parseHM : List Char → Option Nat
  | [d1] => if isDig d1 then some (digitVal d1 * 60) else none
  | [d1, d2] =>
    if isDig d1 && isDig d2 then some ((10 * digitVal d1 + digitVal d2) * 60) else none
  | [d1, ':', m1, m2] =>
    if isDig d1 && isDig m1 && isDig m2 then
      some (digitVal d1 * 60 + (10 * digitVal m1 + digitVal m2)) else none
  | [d1, d2, ':', m1, m2] =>
    if isDig d1 && isDig d2 && isDig m1 && isDig m2 then
      some ((10 * digitVal d1 + digitVal d2) * 60 + (10 * digitVal m1 + digitVal m2)) else none
  | _ => none

/-- `parseOffsetTimezone` (expenseParser.js lines 111-130): trims the value
and matches `/^(?:GMT|UTC)([+-])(\d{1,2})(?::(\d{2}))?$/i`, returning the
signed offset in minutes.  The `Number.isNaN` guard on line 125 is
unreachable (the captures are digit strings) and therefore has no model. -/
def parseOffsetTimezone (value : String) : Option Int :=
  match jsTrimL value.toList with
  | c1 :: c2 :: c3 :: sgn :: rest =>
    if (c1.toLower = 'g' && c2.toLower = 'm' && c3.toLower = 't')
        || (c1.toLower = 'u' && c2.toLower = 't' && c3.toLower = 'c') then
      match parseSign sgn with
      | some sg => (parseHM rest).map (fun mins => sg * (mins : Int))
      | none => none
    else none
  | _ => none

/-- Era of a day number shifted to 0000-03-01: the proleptic-Gregorian
civil-from-days conversion used by ECMA-262 `Date` (all `cfd*` definitions
together model the year/month/day that `toISOString` prints for the UTC
instant; the decomposition follows the standard 400-year-era algorithm). -/
def cfdEra (z : Int) : Int := (z + 719468) / 146097

/-- Day-of-era, in `[0, 146096]`. -/
def cfdDoe (z : Int) : Nat := ((z + 719468) % 146097).toNat

/-- Year-of-era, in `[0, 399]`. -/
def cfdYoe (z : Int) : Nat :=
  (cfdDoe z - cfdDoe z / 1460 + cfdDoe z / 36524 - cfdDoe z / 146096) / 365

/-- Day-of-year of the March-based year, in `[0, 365]`. -/
def cfdDoy (z : Int) : Nat :=
  cfdDoe z - (365 * cfdYoe z + cfdYoe z / 4 - cfdYoe z / 100)

/-- March-based month index, in `[0, 11]`. -/
def cfdMp (z : Int) : Nat := (5 * cfdDoy z + 2) / 153

/-- Calendar day of month, in `[1, 31]`. -/
def cfdDay (z : Int) : Nat := cfdDoy z - (153 * cfdMp z + 2) / 5 + 1

/-- Calendar month, in `[1, 12]`. -/
def cfdMonth (z : Int) : Nat := if cfdMp z < 10 then cfdMp z + 3 else cfdMp z - 9

/-- Calendar year (January-based). -/
def cfdYear (z : Int) : Int :=
  (cfdYoe z : Int) + cfdEra z * 400 + (if cfdMonth z ≤ 2 then 1 else 0)

/-- The ASCII digit character of `n % 10`. -/
def digitChar (n : Nat) : Char := Char.ofNat (48 + n % 10)

/-- Two zero-padded decimal digits, as `toISOString` prints month and day. -/
def pad2L (n : Nat) : List Char := [digitChar (n / 10), digitChar n]

/-- Four zero-padded decimal digits, as `toISOString` prints years 0-9999. -/
def pad4L (n : Nat) : List Char :=
  [digitChar (n / 1000), digitChar (n / 100), digitChar (n / 10), digitChar n]

/-- Six zero-padded decimal digits, for the expanded-year form of
`toISOString` (years outside 0-9999 print as `±YYYYYY`). -/
def pad6L (n : Nat) : List Char :=
  [digitChar (n / 100000), digitChar (n / 10000), digitChar (n / 1000),
   digitChar (n / 100), digitChar (n / 10), digitChar n]

/-- `new Date(t).toISOString().slice(0, 10)` for a valid time value `t` (ms):
the day number is `floor(t / 86400000)`; the date prints as
`YYYY-MM-DD` for years 0-9999 and in the expanded form `±YYYYYY-MM-DD` beyond
(which `slice(0, 10)` then truncates). -/
def isoSliceChars (t : Int) : List Char :=
  let z := t / 86400000
  ((if 0 ≤ cfdYear z ∧ cfdYear z ≤ 9999 then pad4L (cfdYear z).toNat
    else if cfdYear z < 0 then '-' :: pad6L (-(cfdYear z)).toNat
    else '+' :: pad6L (cfdYear z).toNat)
    ++ '-' :: pad2L (cfdMonth z) ++ '-' :: pad2L (cfdDay z)).take 10

/-- String form of `isoSliceChars`. -/
def isoDateSlice (t : Int) : String := String.mk (isoSliceChars t)

/-- The largest time value a `Date` can hold (ECMA-262 `TimeClip`): beyond
`8.64e15` ms the internal value is `NaN`, `formatToParts` throws a caught
`RangeError`, and `toISOString` throws an uncaught one. -/
def jsMaxTime : Nat := 8640000000000000

/-- The catch-branch of `formatDateFromTimestamp` (expenseParser.js lines
145-158): try the fixed-offset interpretation and shift the instant, else
fall back to the plain UTC date.  Both branches call `toISOString`, which
throws `RangeError` when the (shifted) time value is invalid — including when
the original timestamp was already invalid, since `NaN + offset` is `NaN`. -/
def dateFallback (timestampMs : Int) (timezone : String) : Except String String :=
  match parseOffsetTimezone timezone with
  | some off =>
    if timestampMs.natAbs ≤ jsMaxTime ∧ (timestampMs + off * 60000).natAbs ≤ jsMaxTime then
      .ok (isoDateSlice (timestampMs + off * 60000))
    else .error "RangeError: Invalid time value"
  | none =>
    if timestampMs.natAbs ≤ jsMaxTime then .ok (isoDateSlice timestampMs)
    else .error "RangeError: Invalid time value"

/-- `formatDateFromTimestamp` (expenseParser.js lines 132-159).  The calendar
engine behind `Intl.DateTimeFormat('en-CA', {timeZone, ...})` is the oracle
`intl`: `none` models a zone the constructor rejects with a `RangeError`
(caught by the `try`), `some fmt` a resolvable zone whose `formatToParts`
yields the year/month/day part strings `fmt t` for a valid time value, and
throws a (caught) `RangeError` for an invalid one. -/
def formatDateFromTimestamp (intl : String → Option (Int → String × String × String))
    (timestampMs : Int) (timezone : String) : Except String String :=
  match intl timezone with
  | some fmt =>
    if timestampMs.natAbs ≤ jsMaxTime then
      .ok ((fmt timestampMs).1 ++ "-" ++ (fmt timestampMs).2.1 ++ "-" ++ (fmt timestampMs).2.2)
    else dateFallback timestampMs timezone
  | none => dateFallback timestampMs timezone

/-- Syntactic `YYYY-MM-DD` shape: ten characters, four digits, dash, two
digits, dash, two digits. -/
def validYMD (s : String) : Bool :=
  match s.toList with
  | [y1, y2, y3, y4, h1, m1, m2, h2, d1, d2] =>
    isDig y1 && isDig y2 && isDig y3 && isDig y4 && h1 = '-' && isDig m1 && isDig m2 &&
      h2 = '-' && isDig d1 && isDig d2
  | _ => false

/-! ## Account directive extraction (index.js lines 23-42) -/

/-- A regex word character (`\w`), as used by the `\b` assertion. -/
def isWordChar (c : Char) : Bool :=
  (65 ≤ c.toNat && c.toNat ≤ 90) || (97 ≤ c.toNat && c.toNat ≤ 122) || isDig c || c = '_'

/-- The `\b` assertion before the `a` of `acc:`: satisfied at the start of
the string or after a non-word character. -/
def boundaryOk : Option Char → Bool
  | none => true
  | some c => !isWordChar c

/-- A character of the directive payload class `[a-z0-9 _-]` under the `/i`
flag (so uppercase letters match too). -/
def isTokenChar (c : Char) : Bool :=
  (65 ≤ c.toNat && c.toNat ≤ 90) || (97 ≤ c.toNat && c.toNat ≤ 122) || isDig c ||
    c = ' ' || c = '_' || c = '-'

/-- Try to match `acc:` (case-insensitively) followed by a non-empty greedy
payload at the head of the input; returns the payload.  Used by the
first-match scan; the global strip below consumes the same shape in place. -/
def matchDirective : List Char → Option (List Char)
  | a :: b :: c :: ':' :: rest =>
    if (a = 'a' || a = 'A') && (b = 'c' || b = 'C') && (c = 'c' || c = 'C') then
      match rest.takeWhile isTokenChar with
      | [] => none
      | tok => some tok
    else none
  | _ => none

/-- Scan for the first `\bacc:([a-z0-9 _-]+)/i` match and return its capture
(`ACCOUNT_OVERRIDE_REGEX.exec`): at each position, the match is tried when
the `\b` assertion holds; otherwise scanning advances one character. -/
def findDirective (prev : Option Char) : List Char → Option (List Char)
  | [] => none
  | c :: cs =>
    match (if boundaryOk prev then matchDirective (c :: cs) else none) with
    | some tok => some tok
    | none => findDirective (some c) cs

/-- Delete every match of `ACCOUNT_OVERRIDE_STRIP_REGEX` (the same pattern
with the `g` flag): scan left to right, removing each match and resuming
right after it.  `skipping = true` means the scanner is inside the payload of
a match being deleted; the payload is greedy, so it ends at the first
non-payload character, and since every match starts with `a`/`A` (a payload
character), no new match can begin at that terminating character — emitting
it directly is faithful.  `prev` is the previous character of the original
string, for the `\b` test. -/
def stripScan : Bool → Option Char → List Char → List Char
  | _, _, [] => []
  | true, _, c :: cs =>
    if isTokenChar c then stripScan true (some c) cs
    else c :: stripScan false (some c) cs
  | false, prev, a :: b :: c :: ':' :: t :: rest =>
    if boundaryOk prev && ((a = 'a' || a = 'A') && (b = 'c' || b = 'C') && (c = 'c' || c = 'C'))
        && isTokenChar t then
      stripScan true (some t) rest
    else a :: stripScan false (some a) (b :: c :: ':' :: t :: rest)
  | false, _, c :: cs => c :: stripScan false (some c) cs

/-- `replace(/\s{2,}/g, ' ')`: every maximal run of two or more whitespace
characters becomes a single space; a lone whitespace character is kept
unchanged.  `inRun = true` means the scanner is inside a run already replaced
by the single space. -/
def collapseScan : Bool → List Char → List Char
  | _, [] => []
  | true, c :: cs =>
    if isJsWs c then collapseScan true cs
    else c :: collapseScan false cs
  | false, c1 :: cs =>
    if isJsWs c1 then
      match cs with
      | c2 :: cs2 =>
        if isJsWs c2 then ' ' :: collapseScan true cs2
        else c1 :: c2 :: collapseScan false cs2
      | [] => [c1]
    else c1 :: collapseScan false cs

/-- The result of `extractAccountDirective`. -/
structure DirectiveResult where
  accountOverride : Option String
  cleanedText : String
deriving DecidableEq

/-- `extractAccountDirective` (index.js lines 26-42): a falsy source gives
`{null, ''}`; otherwise the override is the trimmed first capture (or `null`
when absent or trimming to empty — `accountOverride || null`), and the
cleaned text is the source with every directive match removed, whitespace
runs of length ≥ 2 collapsed to single spaces, and the result trimmed. -/
def extractAccountDirective (sourceText : String) : DirectiveResult :=
  if sourceText = "" then ⟨none, ""⟩
  else
    let ov := match findDirective none sourceText.toList with
      | some tok => if jsTrimL tok = [] then none else some (String.mk (jsTrimL tok))
      | none => none
    ⟨ov, String.mk (jsTrimL (collapseScan false (stripScan false none sourceText.toList)))⟩

/-! ## Account resolver and orchestrator account step

The repository's Account Resolver is not among the captured sources: the
caller `handleMessage` (index.js lines 286-328) computes `accountOverride` and
`rawText` and passes both to `expenseParser.parse`, but the captured
`ExpenseParser.parse` ignores them, so the resolving step itself is missing
from src/ and is modelled from the spec (§4.4 and §4.5). -/

/-- Modelled from the spec: the closed account vocabulary (§3, "Account
Vocabulary").  The canonical names are fixed by the prompt in gemini.js
("Account must be one of: cash, gopay, shopeepay, isaku, bca, flazz emoney,
superbank, jago cloudthingy"); the spec says every canonical name is among
its own aliases and no further alias entries are recoverable from the
captured sources, so each alias set is the singleton of its canonical name. -/
def accountVocabulary : List (String × List String) :=
  [("cash", ["cash"]), ("gopay", ["gopay"]), ("shopeepay", ["shopeepay"]),
   ("isaku", ["isaku"]), ("bca", ["bca"]), ("flazz emoney", ["flazz emoney"]),
   ("superbank", ["superbank"]), ("jago cloudthingy", ["jago cloudthingy"])]

/-- Case-insensitive prefix test returning the remainder of the haystack. -/
def eatCI : List Char → List Char → Option (List Char)
  | [], hay => some hay
  | _ :: _, [] => none
  | n :: ns, h :: hs => if n.toLower = h.toLower then eatCI ns hs else none

/-- Word-boundary-respecting hit of `needle` at the head of `hay`. -/
def wordHitAt (needle hay : List Char) : Bool :=
  match eatCI needle hay with
  | some [] => true
  | some (c :: _) => !isWordChar c
  | none => false

/-- Modelled from the spec: the "word-boundary, case-insensitive" scan of
§4.4 step 3 — does `needle` occur anywhere in `hay` on word boundaries? -/
def containsWordCI (needle : List Char) : Option Char → List Char → Bool
  | prev, [] => boundaryOk prev && wordHitAt needle []
  | prev, c :: hs =>
    (boundaryOk prev && wordHitAt needle (c :: hs)) || containsWordCI needle (some c) hs

/-- Modelled from the spec: §4.4 steps 1-2 normalization — case-insensitive
exact match of the trimmed label against a canonical name or any alias. -/
def normalizeAccountLabel (s : String) : Option String :=
  ((accountVocabulary.find? (fun e => e.2.any (fun a => lowerStr a = lowerStr (jsTrim s))))).map
    (fun e => e.1)

/-- Modelled from the spec: §4.4 step 3 — walk the candidates in order and
return the first canonical name one of whose aliases occurs (word-boundary,
case-insensitive) in the first non-empty candidate that has any hit. -/
def firstAliasHit : List String → Option String
  | [] => none
  | c :: rest =>
    if c = "" then firstAliasHit rest
    else
      match accountVocabulary.find?
          (fun e => e.2.any (fun a => containsWordCI a.toList none c.toList)) with
      | some e => some e.1
      | none => firstAliasHit rest

/-- Modelled from the spec: `resolveAccount` (§4.4) — override first (a
non-normalizing override is discarded, never an error), then the
model-proposed account, then the alias scan of the candidates, else null. -/
def resolveAccount (override modelProposedAccount : Option String)
    (textCandidates : List String) : Option String :=
  match override.bind normalizeAccountLabel with
  | some a => some a
  | none =>
    match modelProposedAccount.bind normalizeAccountLabel with
    | some a => some a
    | none => firstAliasHit textCandidates

/-- Replace the `account` field of a record. -/
def setAccount (r : ExpenseRecord) (a : Option String) : ExpenseRecord :=
  ⟨r.date, r.description, r.category, r.amount, r.currency, r.merchant, a⟩

/-- Modelled from the spec: the Extraction Orchestrator (§4.5) — run the
fallback chain (`ExpenseParser.parse`, captured in src/) and then, regardless
of which path produced the record, assign to its `account` field the result
of `resolveAccount` applied to the override directive, the record's proposed
account, and the candidate texts (cleaned text, raw text, description,
merchant — in that order). -/
def extract (imageOutcome textOutcome : Except String ExpenseRecord)
    (hasMedia : Bool) (cleanedText rawText : String)
    (accountOverride : Option String) (fallbackDate defaultCurrency : String) :
    Except ParseError ExpenseRecord :=
  match ExpenseParser.parse imageOutcome textOutcome hasMedia cleanedText fallbackDate
      defaultCurrency with
  | .ok r => .ok (setAccount r (resolveAccount accountOverride r.account
      [cleanedText, rawText, r.description, r.merchant.getD ""]))
  | .error e => .error e

/-- Two adjacent whitespace characters somewhere in the list. -/
def hasWsRun : List Char → Bool
  | c1 :: c2 :: cs => (isJsWs c1 && isJsWs c2) || hasWsRun (c2 :: cs)
  | _ => false

/-- A concrete calendar-engine instance for the C4 witness: it resolves
exactly `"UTC"`, printing the ISO year/month/day parts. -/
def mockUtcParts (u : Int) : String × String × String :=
  (String.mk (pad4L (cfdYear (u / 86400000)).toNat),
   String.mk (pad2L (cfdMonth (u / 86400000))),
   String.mk (pad2L (cfdDay (u / 86400000))))

/-- The mock engine: `"UTC"` resolves, everything else throws. -/
def mockIntl (tz : String) : Option (Int → String × String × String) :=
  if tz = "UTC" then some mockUtcParts else none

/-- A calendar-engine instance extending `mockUtcParts` past year 9999 the
way `Intl.DateTimeFormat` does: the `numeric` year style prints the plain
year digits (five of them for years 10000-99999) with no sign and no
six-digit padding, unlike `toISOString`'s expanded `±YYYYYY` form.  On years
0-9999 it keeps the ISO shape. -/
def mockUtcPartsWide (u : Int) : String × String × String :=
  let z := u / 86400000
  (if cfdYear z ≤ 9999 then String.mk (pad4L (cfdYear z).toNat)
   else String.mk (digitChar ((cfdYear z).toNat / 10000) :: pad4L (cfdYear z).toNat),
   String.mk (pad2L (cfdMonth z)), String.mk (pad2L (cfdDay z)))

/-- The wide-year mock engine: `"UTC"` resolves to `mockUtcPartsWide`,
everything else throws. -/
def mockIntlWide (tz : String) : Option (Int → String × String × String) :=
  if tz = "UTC" then some mockUtcPartsWide else none

/-! ## Claim theorems: model-path normalization (C6, C8) -/

/-- C8: the model-response normalization step is the identity on the already
canonical record `{date: "2024-03-17", description: "Lunch", category:
"Food", amount: 12.5, currency: "USD", merchant: null, account: "cash"}`,
whatever fallback date and default currency are in force — no field is
rewritten. -/
theorem normalizeResponse_canonical_roundtrip (fallbackDate defaultCurrency : String) :
    normalizeResponse
      ⟨some "2024-03-17", some "Lunch", some "Food", .num (mkRat 25 2), some "USD", none,
        some "cash"⟩ fallbackDate defaultCurrency
    = .ok ⟨"2024-03-17", "Lunch", "Food", mkRat 25 2, "USD", none, some "cash"⟩ := rfl

/-- C6 (amended): normalization fails with the amount error exactly when the
coerced amount is `null` or zero — so the string amounts `"$0.00"` (coerced
to 0) and `"abc"` (coerced to `null`) always fail — but the falsiness guard
`if (!parsed.amount)` does not reject negative amounts. -/
theorem normalizeResponse_amount_guard (raw : RawResponse) (fb dc : String) :
    ((∃ r, normalizeResponse raw fb dc = .ok r) ↔
      ∃ q, coerceNumber raw.amount = some q ∧ q ≠ 0)
    ∧ coerceNumber (.str "$0.00") = some 0
    ∧ coerceNumber (.str "abc") = none := by
  refine ⟨?_, by decide, by decide⟩
  unfold normalizeResponse
  cases h : coerceNumber raw.amount with
  | none => simp
  | some q =>
    by_cases hq : q = 0
    · subst hq; simp
    · simp [hq]

/-- C6 counterexample: a negative model amount is accepted — normalization of
an amount field `"-5"` succeeds and returns the record with amount `-5 < 0`,
refuting "no non-positive amount (zero or negative) is ever accepted". -/
theorem normalizeResponse_accepts_negative_amount :
    normalizeResponse ⟨none, none, none, .str "-5", none, none, none⟩ "2024-01-01" "USD"
      = .ok ⟨"2024-01-01", "Expense", "General", -5, "USD", none, none⟩
    ∧ (-5 : ℚ) < 0 := by
  exact ⟨by decide, by decide⟩

/-! ## Claim theorems: regex fallback (C5, C7) -/

/-- C5 (amended): the regex fallback strips every comma from the amount token
(thousands-grouping treatment, `replace(/,/g, '')`) before parsing, so
`fallbackParse("Coffee 3,50 €", "2024-01-01", "USD")` yields amount `350`
(not `3.5`) and currency `"EUR"`. -/
theorem fallbackParse_comma_thousands :
    fallbackParseText "Coffee 3,50 €" "2024-01-01" "USD"
      = .ok ⟨"2024-01-01", "Coffee", "General", 350, "EUR", none, none⟩ := by decide

/-- C5 counterexample: on `"Coffee 3,50 €"` the produced amount is `350`,
not the claimed `3.5` (= `mkRat 7 2`) — the comma is not treated as a
decimal separator. -/
theorem fallbackParse_comma_not_decimal :
    (fallbackParseText "Coffee 3,50 €" "2024-01-01" "USD"
      = .ok ⟨"2024-01-01", "Coffee", "General", 350, "EUR", none, none⟩)
    ∧ (350 : ℚ) ≠ mkRat 7 2 := by
  exact ⟨by decide, by decide⟩

/-- C7: `fallbackParse("Lunch 12.50 USD", "2024-01-01", "USD")` returns
exactly `{date: "2024-01-01", description: "Lunch", category: "General",
amount: 12.5, currency: "USD", merchant: null, account: null}`, and every
record the fallback stage produces carries a null account. -/
theorem fallbackParse_lunch_record :
    fallbackParseText "Lunch 12.50 USD" "2024-01-01" "USD"
      = .ok ⟨"2024-01-01", "Lunch", "General", mkRat 25 2, "USD", none, none⟩
    ∧ ∀ text fb dc r, fallbackParseText text fb dc = .ok r → r.account = none := by
  refine ⟨by decide, ?_⟩
  intro text fb dc r h
  unfold fallbackParseText at h
  split at h
  · exact absurd h (by simp)
  · split at h
    · exact absurd h (by simp)
    · injection h with h2
      rw [← h2]

/-- Witness for C7 at the concrete input of the claim. -/
theorem fallbackParse_lunch_record_witness :
    (⟨"2024-01-01", "Lunch", "General", mkRat 25 2, "USD", none, none⟩ : ExpenseRecord).account
      = none :=
  fallbackParse_lunch_record.2 "Lunch 12.50 USD" "2024-01-01" "USD" _ fallbackParse_lunch_record.1

/-! ## Claim theorems: persistence row (C9) -/

/-- C9 (amended): the row handed to both persistence paths carries timestamp,
date, category, description (note-suffixed), amount and merchant, but its
currency column (index 5) is always the empty string — the record's currency
is never written. -/
theorem expenseRow_layout (e : ExpenseRecord) (noteIn nowIso : String) :
    (expenseRow e noteIn nowIso).length = 10
    ∧ (expenseRow e noteIn nowIso).get? 0 = some (.str nowIso)
    ∧ (expenseRow e noteIn nowIso).get? 1 = some (.str e.date)
    ∧ (expenseRow e noteIn nowIso).get? 2 = some (.str e.category)
    ∧ (expenseRow e noteIn nowIso).get? 3 = some (.str (noteDescription e noteIn))
    ∧ (expenseRow e noteIn nowIso).get? 4 = some (.num e.amount)
    ∧ (expenseRow e noteIn nowIso).get? 5 = some (.str "")
    ∧ (expenseRow e noteIn nowIso).get? 6 = some (.str (e.merchant.getD "")) :=
  ⟨rfl, rfl, rfl, rfl, rfl, rfl, rfl, rfl⟩

/-- C9 counterexample: for a record with currency `"USD"`, the appended row's
currency column holds `""`, not `"USD"`. -/
theorem expenseRow_currency_blank :
    (expenseRow ⟨"2024-01-01", "Lunch", "Food", mkRat 25 2, "USD", none, none⟩ ""
        "2024-01-02T00:00:00.000Z").get? 5 = some (.str "")
    ∧ Cell.str "" ≠ Cell.str "USD" := by
  exact ⟨rfl, by decide⟩

/-! ## Claim theorems: orchestrator fallback chain (C2) -/

/-- C2: with an image present, a failed model image parse falls back to the
regex parser exactly when non-empty text accompanies the message, and with no
text the original model error is propagated unchanged; with no image, the
model text parse runs first and the regex fallback second, and an error
escapes only when both fail (and it is then the fallback's error). -/
theorem parse_fallback_chain
    (imageOutcome textOutcome : Except String ExpenseRecord)
    (text fallbackDate defaultCurrency : String) :
    (∀ e, imageOutcome = .error e → text = "" →
      ExpenseParser.parse imageOutcome textOutcome true text fallbackDate defaultCurrency
        = .error (.model e))
    ∧ (∀ e r, imageOutcome = .error e → text ≠ "" →
        fallbackParseText text fallbackDate defaultCurrency = .ok r →
        ExpenseParser.parse imageOutcome textOutcome true text fallbackDate defaultCurrency
          = .ok r)
    ∧ (∀ e fe, imageOutcome = .error e → text ≠ "" →
        fallbackParseText text fallbackDate defaultCurrency = .error fe →
        ExpenseParser.parse imageOutcome textOutcome true text fallbackDate defaultCurrency
          = .error (.fallback fe))
    ∧ (∀ r, textOutcome = .ok r →
        ExpenseParser.parse imageOutcome textOutcome false text fallbackDate defaultCurrency
          = .ok r)
    ∧ (∀ e r, textOutcome = .error e →
        fallbackParseText text fallbackDate defaultCurrency = .ok r →
        ExpenseParser.parse imageOutcome textOutcome false text fallbackDate defaultCurrency
          = .ok r)
    ∧ (∀ e fe, textOutcome = .error e →
        fallbackParseText text fallbackDate defaultCurrency = .error fe →
        ExpenseParser.parse imageOutcome textOutcome false text fallbackDate defaultCurrency
          = .error (.fallback fe)) := by
  refine ⟨?_, ?_, ?_, ?_, ?_, ?_⟩ <;> intros <;> subst_vars <;>
    simp [ExpenseParser.parse, *]

/-- Witness for C2: image present, model failure, no text — the original
model error comes back. -/
theorem parse_fallback_chain_witness :
    ExpenseParser.parse (.error "boom") (.error "x") true "" "2024-01-01" "USD"
      = .error (.model "boom") :=
  (parse_fallback_chain (.error "boom") (.error "x") "" "2024-01-01" "USD").1 "boom" rfl rfl

/-! ## Claim theorems: account resolution (C1) -/

/-- C1: whichever path produced the candidate record, the orchestrator
returns it with `account` set to the Account Resolver's verdict on the
override directive, the record's proposed account, and the candidate texts
(cleaned text, raw text, description, merchant — in that order); and
`resolveAccount({override: "GoPay", modelProposedAccount: null,
textCandidates: []})` is `"gopay"`. -/
theorem extract_resolves_account :
    (∀ imageOutcome textOutcome hasMedia cleanedText rawText accountOverride fb dc r,
      extract imageOutcome textOutcome hasMedia cleanedText rawText accountOverride fb dc
        = .ok r →
      ∃ r0, ExpenseParser.parse imageOutcome textOutcome hasMedia cleanedText fb dc = .ok r0
        ∧ r = setAccount r0 (resolveAccount accountOverride r0.account
            [cleanedText, rawText, r0.description, r0.merchant.getD ""]))
    ∧ resolveAccount (some "GoPay") none [] = some "gopay" := by
  refine ⟨?_, by decide⟩
  intro io tout hm ct rt ov fb dc r h
  unfold extract at h
  split at h
  · rename_i r0 hp
    injection h with h2
    exact ⟨r0, hp, h2.symm⟩
  · exact absurd h (by simp)

/-- Witness for C1: a concrete text-path success with override `"GoPay"`
resolving to account `"gopay"`. -/
theorem extract_resolves_account_witness :
    ∃ r0, ExpenseParser.parse (.error "x")
        (.ok ⟨"2024-01-01", "Lunch", "General", mkRat 25 2, "USD", none, none⟩)
        false "" "2024-01-01" "USD" = .ok r0
      ∧ (⟨"2024-01-01", "Lunch", "General", mkRat 25 2, "USD", none, some "gopay"⟩ :
          ExpenseRecord)
        = setAccount r0 (resolveAccount (some "GoPay") r0.account
            ["", "", r0.description, r0.merchant.getD ""]) :=
  extract_resolves_account.1 (.error "x")
    (.ok ⟨"2024-01-01", "Lunch", "General", mkRat 25 2, "USD", none, none⟩)
    false "" "" (some "GoPay") "2024-01-01" "USD"
    ⟨"2024-01-01", "Lunch", "General", mkRat 25 2, "USD", none, some "gopay"⟩ (by decide)

/-! ## Claim theorems: account-directive extraction (C10) -/

/-- When scanning from a position finds no directive, the same holds from the
next position. -/
theorem findDirective_cons_rest (prev : Option Char) (c : Char) (cs : List Char)
    (h : findDirective prev (c :: cs) = none) : findDirective (some c) cs = none := by
  unfold findDirective at h
  split at h
  · exact absurd h (by simp)
  · exact h

/-- When scanning finds no directive, the boundary-gated head match fails. -/
theorem findDirective_cons_gate (prev : Option Char) (c : Char) (cs : List Char)
    (h : findDirective prev (c :: cs) = none) :
    (if boundaryOk prev then matchDirective (c :: cs) else none) = none := by
  unfold findDirective at h
  split at h
  · exact absurd h (by simp)
  · rename_i heq
    exact heq

/-- When the first-match scan finds nothing, the global strip is the
identity. -/
theorem stripScan_no_directive (b : Bool) (prev : Option Char) (cs : List Char) :
    b = false → findDirective prev cs = none → stripScan b prev cs = cs := by
  induction b, prev, cs using stripScan.induct with
  | case1 => intro _ _; rw [stripScan.eq_1]
  | case2 x c cs hc ih => intro hb _; exact absurd hb (by decide)
  | case3 x c cs hc ih => intro hb _; exact absurd hb (by decide)
  | case4 prev a b c t rest hcond ih =>
    intro _ h
    exfalso
    have hg := findDirective_cons_gate prev a _ h
    simp only [Bool.and_eq_true] at hcond
    obtain ⟨⟨hb, hh⟩, ht⟩ := hcond
    rw [if_pos hb] at hg
    obtain ⟨⟨h1, h2⟩, h3⟩ := hh
    simp [matchDirective, h1, h2, h3, ht, List.takeWhile_cons] at hg
  | case5 prev a b c t rest hcond ih =>
    intro _ h
    rw [stripScan.eq_3, if_neg hcond]
    rw [ih rfl (findDirective_cons_rest prev a _ h)]
  | case6 x c cs hne ih =>
    intro _ h
    rw [stripScan.eq_4 _ _ _ hne]
    rw [ih rfl (findDirective_cons_rest x c cs h)]

/-- A list without a whitespace run keeps that property on its tail. -/
theorem hasWsRun_tail (c : Char) (cs : List Char) (h : hasWsRun (c :: cs) = false) :
    hasWsRun cs = false := by
  cases cs with
  | nil => rfl
  | cons d ds =>
    unfold hasWsRun at h
    simp only [Bool.or_eq_false_iff] at h
    exact h.2

/-- Without a whitespace run of length two, the collapse is the identity. -/
theorem collapseScan_no_run (b : Bool) (cs : List Char) :
    b = false → hasWsRun cs = false → collapseScan b cs = cs := by
  induction b, cs using collapseScan.induct with
  | case1 => intro _ _; rw [collapseScan.eq_1]
  | case2 c cs hc ih => intro hb _; exact absurd hb (by decide)
  | case3 c cs hc ih => intro hb _; exact absurd hb (by decide)
  | case4 c1 hw1 c2 cs2 hw2 ih =>
    intro _ h
    exfalso
    unfold hasWsRun at h
    simp [hw1, hw2] at h
  | case5 c1 hw1 c2 cs2 hw2 ih =>
    intro _ h
    rw [collapseScan.eq_3, if_pos hw1, if_neg hw2]
    rw [ih rfl (hasWsRun_tail _ _ (hasWsRun_tail _ _ h))]
  | case6 c1 hw1 =>
    intro _ _
    rw [collapseScan.eq_4, if_pos hw1]
  | case7 c1 cs hw1 ih =>
    intro _ h
    cases cs with
    | nil => rw [collapseScan.eq_4, if_neg hw1, collapseScan.eq_1]
    | cons c2 cs2 =>
      rw [collapseScan.eq_3, if_neg hw1]
      rw [ih rfl (hasWsRun_tail _ _ h)]

/-- C10 (amended): the override is the trimmed payload of the first
case-insensitive `acc:<token>` match (null when absent or trimming to empty);
the cleaned text is the input with every match removed, whitespace runs of
length ≥ 2 collapsed to single spaces, and the result trimmed — so with no
directive the override is null and the cleaned text is the trimmed input
whenever the input also contains no such whitespace run (collapsing happens
regardless of whether a directive was present). -/
theorem extractAccountDirective_spec :
    (∀ s : String, findDirective none s.toList = none →
      (extractAccountDirective s).accountOverride = none)
    ∧ (∀ s : String, findDirective none s.toList = none → hasWsRun s.toList = false →
      (extractAccountDirective s).cleanedText = jsTrim s)
    ∧ (∀ (s : String) (tok : List Char), findDirective none s.toList = some tok →
      (extractAccountDirective s).accountOverride
        = (if jsTrimL tok = [] then none else some (String.mk (jsTrimL tok))))
    ∧ extractAccountDirective "Lunch 12 acc:gopay" = ⟨some "gopay", "Lunch 12"⟩ := by
  refine ⟨?_, ?_, ?_, by decide⟩
  · intro s h
    unfold extractAccountDirective
    by_cases hs : s = ""
    · simp [hs]
    · have h2 : findDirective none s.data = none := h
      simp [hs, h2]
  · intro s h hrun
    unfold extractAccountDirective
    by_cases hs : s = ""
    · subst hs
      simp [jsTrim, jsTrimL]
    · rw [if_neg hs]
      simp only
      rw [stripScan_no_directive false none _ rfl h, collapseScan_no_run false _ rfl hrun]
      rfl
  · intro s tok h
    unfold extractAccountDirective
    by_cases hs : s = ""
    · subst hs
      rw [show findDirective none ("" : String).toList = none from rfl] at h
      exact absurd h (by simp)
    · have h2 : findDirective none s.data = some tok := h
      simp [hs, h2]

/-- Witness for C10: a directive-free, run-free input keeps its trimmed text
and yields no override. -/
theorem extractAccountDirective_spec_witness :
    (extractAccountDirective "hello world").cleanedText = jsTrim "hello world" :=
  extractAccountDirective_spec.2.1 "hello world" (by decide) (by decide)

/-- C10 counterexample: on the directive-free input `"a  b"` the cleaned text
is `"a b"` — not the trimmed input `"a  b"` — because space collapsing
applies even when no directive is present. -/
theorem extractAccountDirective_collapses_without_directive :
    findDirective none ("a  b").toList = none
    ∧ (extractAccountDirective "a  b").cleanedText = "a b"
    ∧ jsTrim "a  b" = "a  b"
    ∧ ("a b" : String) ≠ "a  b" := by decide

/-! ## Claim theorems: date resolver (C3, C4) -/

set_option maxHeartbeats 1000000 in
/-- Calendar bounds of the civil-from-days conversion on the day numbers of
years 0-9999 (day -719528 is 0000-01-01, day 2932896 is 9999-12-31). -/
theorem cfd_bounds (z : Int) (h1 : -719528 ≤ z) (h2 : z ≤ 2932896) :
    0 ≤ cfdYear z ∧ cfdYear z ≤ 9999 ∧ 1 ≤ cfdMonth z ∧ cfdMonth z ≤ 12
    ∧ 1 ≤ cfdDay z ∧ cfdDay z ≤ 31 := by
  have hde : (z + 719468) = 146097 * cfdEra z + (cfdDoe z : Int) := by
    unfold cfdEra cfdDoe
    omega
  have hdlt : cfdDoe z < 146097 := by
    unfold cfdDoe
    omega
  have hyoe : cfdYoe z
      = (cfdDoe z - cfdDoe z / 1460 + cfdDoe z / 36524 - cfdDoe z / 146096) / 365 := rfl
  have hdoy : cfdDoy z = cfdDoe z - (365 * cfdYoe z + cfdYoe z / 4 - cfdYoe z / 100) := rfl
  have hmp : cfdMp z = (5 * cfdDoy z + 2) / 153 := rfl
  have hday : cfdDay z = cfdDoy z - (153 * cfdMp z + 2) / 5 + 1 := rfl
  have hmon : cfdMonth z = if cfdMp z < 10 then cfdMp z + 3 else cfdMp z - 9 := rfl
  have hyr : cfdYear z
      = (cfdYoe z : Int) + cfdEra z * 400 + (if cfdMonth z ≤ 2 then 1 else 0) := rfl
  split_ifs at hmon hyr <;> omega

/-- Every padded digit character passes the digit test. -/
theorem isDig_digitChar (n : Nat) : isDig (digitChar n) = true := by
  unfold digitChar
  have h : n % 10 < 10 := Nat.mod_lt _ (by norm_num)
  set m := n % 10 with hm
  interval_cases m <;> decide

/-- On instants of years 0-9999 the printed slice is a syntactically valid
`YYYY-MM-DD` string. -/
theorem validYMD_isoDateSlice (t : Int) (h1 : -62167219200000 ≤ t)
    (h2 : t ≤ 253402300799999) : validYMD (isoDateSlice t) = true := by
  have hz1 : -719528 ≤ t / 86400000 := by omega
  have hz2 : t / 86400000 ≤ 2932896 := by omega
  obtain ⟨hy0, hy1, hm0, hm1, hd0, hd1⟩ := cfd_bounds (t / 86400000) hz1 hz2
  unfold isoDateSlice isoSliceChars
  simp only
  rw [if_pos ⟨hy0, hy1⟩]
  rw [List.take_of_length_le (by simp [pad4L, pad2L])]
  simp [validYMD, pad4L, pad2L, isDig_digitChar]

/-- `parseHM` yields at most 99 hours and 99 minutes. -/
theorem parseHM_le (cs : List Char) (m : Nat) (h : parseHM cs = some m) : m ≤ 6039 := by
  unfold parseHM at h
  split at h
  · split_ifs at h with hd
    simp only [Option.some.injEq] at h
    simp only [isDig, Bool.and_eq_true, decide_eq_true_eq] at hd
    unfold digitVal at h
    omega
  · split_ifs at h with hd
    simp only [Option.some.injEq] at h
    simp only [isDig, Bool.and_eq_true, decide_eq_true_eq] at hd
    unfold digitVal at h
    omega
  · split_ifs at h with hd
    simp only [Option.some.injEq] at h
    simp only [isDig, Bool.and_eq_true, decide_eq_true_eq] at hd
    unfold digitVal at h
    omega
  · split_ifs at h with hd
    simp only [Option.some.injEq] at h
    simp only [isDig, Bool.and_eq_true, decide_eq_true_eq] at hd
    unfold digitVal at h
    omega
  · exact absurd h (by simp)

/-- The sign returned by `parseSign` is `1` or `-1`. -/
theorem parseSign_vals (c : Char) (s : Int) (h : parseSign c = some s) :
    s = 1 ∨ s = -1 := by
  unfold parseSign at h
  split at h <;> simp_all

/-- A parsed fixed offset is at most 6039 minutes in magnitude. -/
theorem parseOffset_le (value : String) (off : Int)
    (h : parseOffsetTimezone value = some off) : off.natAbs ≤ 6039 := by
  unfold parseOffsetTimezone at h
  split at h
  · rename_i c1 c2 c3 sgn rest heq
    split_ifs at h
    split at h
    · rename_i sg hsg
      rcases parseSign_vals sgn sg hsg with h1 | h1 <;>
      · subst h1
        cases hm : parseHM rest with
        | none => rw [hm] at h; exact absurd h (by simp)
        | some mv =>
          rw [hm] at h
          injection h with h2
          simp only [Int.reduceNeg, Int.one_mul, Int.neg_mul] at h2
          have := parseHM_le rest mv hm
          omega
    · exact absurd h (by simp)
  · exact absurd h (by simp)

/-- C3 (amended): for every timezone specifier and every timestamp within
JavaScript Date's representable range whose instant — including any fixed
offset the resolver may apply, at most ±100:39 hours — falls in UTC years
0-9999, the resolver returns a syntactically valid `YYYY-MM-DD` string,
degrading through the three strategies: engine-resolved calendar formatting
(assumed, as `hOracle` states, to print four-digit years and two-digit
months/days), then the `(GMT|UTC)±H[:MM]` offset shift of the instant, else
the plain UTC date.  Outside Date's range the fallback strategies throw (see
the counterexample). -/
theorem formatDate_total_and_valid
    (intl : String → Option (Int → String × String × String))
    (timezone : String) (t : Int)
    (hOracle : ∀ f, intl timezone = some f → ∀ u,
      validYMD ((f u).1 ++ "-" ++ (f u).2.1 ++ "-" ++ (f u).2.2) = true)
    (hlo : -62166856860000 ≤ t) (hhi : t ≤ 253401938459999) :
    (∃ s, formatDateFromTimestamp intl t timezone = .ok s ∧ validYMD s = true)
    ∧ (intl timezone = none → ∀ off, parseOffsetTimezone timezone = some off →
        formatDateFromTimestamp intl t timezone = .ok (isoDateSlice (t + off * 60000)))
    ∧ (intl timezone = none → parseOffsetTimezone timezone = none →
        formatDateFromTimestamp intl t timezone = .ok (isoDateSlice t)) := by
  have hval : t.natAbs ≤ jsMaxTime := by
    unfold jsMaxTime
    omega
  refine ⟨?_, ?_, ?_⟩
  · cases hi : intl timezone with
    | some f =>
      refine ⟨_, ?_, hOracle f hi t⟩
      unfold formatDateFromTimestamp
      simp only [hi]
      rw [if_pos hval]
    | none =>
      unfold formatDateFromTimestamp dateFallback
      simp only [hi]
      cases ho : parseOffsetTimezone timezone with
      | some off =>
        have hb := parseOffset_le timezone off ho
        have hval2 : t.natAbs ≤ jsMaxTime ∧ (t + off * 60000).natAbs ≤ jsMaxTime := by
          unfold jsMaxTime
          unfold jsMaxTime at hval
          omega
        simp only [ho]
        rw [if_pos hval2]
        exact ⟨_, rfl, validYMD_isoDateSlice _ (by omega) (by omega)⟩
      | none =>
        simp only [ho]
        rw [if_pos hval]
        exact ⟨_, rfl, validYMD_isoDateSlice _ (by omega) (by omega)⟩
  · intro hi off ho
    unfold formatDateFromTimestamp dateFallback
    simp only [hi, ho]
    have hb := parseOffset_le timezone off ho
    have hval2 : t.natAbs ≤ jsMaxTime ∧ (t + off * 60000).natAbs ≤ jsMaxTime := by
      unfold jsMaxTime
      unfold jsMaxTime at hval
      omega
    rw [if_pos hval2]
  · intro hi ho
    unfold formatDateFromTimestamp dateFallback
    simp only [hi, ho]
    rw [if_pos hval]

/-- Witness for C3 at the unresolvable zone of the claim and a 2023
timestamp. -/
theorem formatDate_total_and_valid_witness :
    ∃ s, formatDateFromTimestamp (fun _ => none) 1700000000000 "Mars/Phobos" = .ok s
      ∧ validYMD s = true :=
  (formatDate_total_and_valid (fun _ => none) "Mars/Phobos" 1700000000000
    (fun f hf => absurd hf (by simp)) (by decide) (by decide)).1

/-- C3 counterexample: for a timestamp beyond Date's representable range
(`8.64e15 + 1` ms) and the unresolvable zone `"Mars/Phobos"`, the resolver
throws a `RangeError` from `toISOString` instead of returning a date — the
claim's "for every integer timestamp ... never raises" fails. -/
theorem formatDate_raises_beyond_range :
    formatDateFromTimestamp (fun _ => none) 8640000000000001 "Mars/Phobos"
      = .error "RangeError: Invalid time value" := by decide

/-- C4 counterexample: the zero-offset/`"UTC"` equality does not hold at
every instant.  At `t = 253402300800000` (10000-01-01T00:00:00Z, well inside
Date's range) the `"UTC+0"` path returns `toISOString`'s truncated
expanded-year slice `"+010000-01"`, while the engine-resolved `"UTC"` path
returns the numeric-year rendering `"10000-01-01"` — with an engine that
agrees with the ISO slice on all of years 0-9999, as the claim's own format
expectations require. -/
theorem formatDate_utc_zero_offset_diverges :
    formatDateFromTimestamp mockIntlWide 253402300800000 "UTC+0" = .ok "+010000-01"
    ∧ formatDateFromTimestamp mockIntlWide 253402300800000 "UTC" = .ok "10000-01-01"
    ∧ ("+010000-01" : String) ≠ "10000-01-01" := by decide

/-- The wide-year mock engine still agrees with the ISO slice on every
instant of years 0-9999 (it only diverges beyond, as the real engine does). -/
theorem mockUtcPartsWide_iso (u : Int) (h1 : -62167219200000 ≤ u)
    (h2 : u ≤ 253402300799999) :
    (mockUtcPartsWide u).1 ++ "-" ++ (mockUtcPartsWide u).2.1 ++ "-"
        ++ (mockUtcPartsWide u).2.2
      = isoDateSlice u := by
  have hz1 : -719528 ≤ u / 86400000 := by omega
  have hz2 : u / 86400000 ≤ 2932896 := by omega
  obtain ⟨hy0, hy1, hm0, hm1, hd0, hd1⟩ := cfd_bounds (u / 86400000) hz1 hz2
  unfold mockUtcPartsWide isoDateSlice isoSliceChars
  simp only
  rw [if_pos hy1, if_pos ⟨hy0, hy1⟩]
  rw [List.take_of_length_le (by simp [pad4L, pad2L])]
  rfl

/-- C4 (amended): under the stated behaviour of the external calendar engine
— it resolves neither `"UTC+7"`, `"GMT+07:00"` nor `"UTC+0"` (none is an
IANA zone name), resolves `"UTC"`, and formats `"UTC"` instants of years
0-9999 exactly as the ISO slice — the resolver returns the same date string
for `"UTC+7"` as for `"GMT+07:00"` at every instant whatsoever, and for
`"UTC+0"` the same string as for `"UTC"` at every instant of years 0-9999;
beyond year 9999 the two zero-offset paths genuinely diverge (see the
counterexample). -/
theorem formatDate_offset_equivalences
    (intl : String → Option (Int → String × String × String))
    (utcFmt : Int → String × String × String)
    (h7 : intl "UTC+7" = none) (h700 : intl "GMT+07:00" = none)
    (h0 : intl "UTC+0" = none) (hUTC : intl "UTC" = some utcFmt)
    (hfmt : ∀ u : Int, -62167219200000 ≤ u → u ≤ 253402300799999 →
      (utcFmt u).1 ++ "-" ++ (utcFmt u).2.1 ++ "-" ++ (utcFmt u).2.2 = isoDateSlice u) :
    (∀ t : Int, formatDateFromTimestamp intl t "UTC+7"
        = formatDateFromTimestamp intl t "GMT+07:00")
    ∧ (∀ t : Int, -62167219200000 ≤ t → t ≤ 253402300799999 →
        formatDateFromTimestamp intl t "UTC+0" = formatDateFromTimestamp intl t "UTC") := by
  constructor
  · intro t
    unfold formatDateFromTimestamp dateFallback
    simp only [h7, h700,
      show parseOffsetTimezone "UTC+7" = some 420 from by decide,
      show parseOffsetTimezone "GMT+07:00" = some 420 from by decide]
  · intro t ht1 ht2
    have hval : t.natAbs ≤ jsMaxTime := by
      unfold jsMaxTime
      omega
    have hteq : t + 0 * 60000 = t := by omega
    unfold formatDateFromTimestamp dateFallback
    simp only [h0, hUTC, show parseOffsetTimezone "UTC+0" = some 0 from by decide]
    rw [hteq]
    have hc : t.natAbs ≤ jsMaxTime ∧ t.natAbs ≤ jsMaxTime := ⟨hval, hval⟩
    rw [if_pos hc, if_pos hval, hfmt t ht1 ht2]

/-- The mock engine prints instants of years 0-9999 exactly as the ISO
slice. -/
theorem mockUtcParts_iso (u : Int) (h1 : -62167219200000 ≤ u)
    (h2 : u ≤ 253402300799999) :
    (mockUtcParts u).1 ++ "-" ++ (mockUtcParts u).2.1 ++ "-" ++ (mockUtcParts u).2.2
      = isoDateSlice u := by
  have hz1 : -719528 ≤ u / 86400000 := by omega
  have hz2 : u / 86400000 ≤ 2932896 := by omega
  obtain ⟨hy0, hy1, hm0, hm1, hd0, hd1⟩ := cfd_bounds (u / 86400000) hz1 hz2
  unfold mockUtcParts isoDateSlice isoSliceChars
  simp only
  rw [if_pos ⟨hy0, hy1⟩]
  rw [List.take_of_length_le (by simp [pad4L, pad2L])]
  rfl

/-- Witness for C4 at a 2023 instant with the mock engine. -/
theorem formatDate_offset_equivalences_witness :
    formatDateFromTimestamp mockIntl 1700000000000 "UTC+7"
        = formatDateFromTimestamp mockIntl 1700000000000 "GMT+07:00"
    ∧ formatDateFromTimestamp mockIntl 1700000000000 "UTC+0"
        = formatDateFromTimestamp mockIntl 1700000000000 "UTC" := by
  have H := formatDate_offset_equivalences mockIntl mockUtcParts rfl rfl rfl rfl mockUtcParts_iso
  exact ⟨H.1 1700000000000, H.2 1700000000000 (by decide) (by decide)⟩

end MpExpense
